import Mathlib

/-!
# Verification of the thought_tree run-execution subsystem

Shallow embedding of the run executor and its HTTP routes:

* `src/backend/misc/utils.py` — `execute_run_async`, `inject_rag_context`,
  `update_run_status`;
* `src/backend/api/chat_routes.py` — `create_run`, `create_and_stream_run`,
  `update_run`, `cancel_run_endpoint`;
* `src/backend/misc/active_runs.py` — the in-memory run registry.

Python JSON-like values are modelled by `Value`; the agent's stream items
(`raw_event` in the source, either a `(mode, data)` tuple or a bare value) by
`RawEvent`; the executor's externally visible behaviour by a trace of
`Action`s.  The database effect of `update_run_status` is modelled by folding
the trace into a `RunRecord`.
-/

set_option maxHeartbeats 1000000

namespace ThoughtTree

/-- JSON-like Python values: `None`, booleans, integers, strings, lists and
(string-keyed, insertion-ordered) dicts. -/
inductive Value where
  | null : Value
  | bool : Bool → Value
  | int : Int → Value
  | str : String → Value
  | list : List Value → Value
  | dict : List (String × Value) → Value

/-- Python truthiness (`bool(v)`): `None`, `False`, `0`, `""`, `[]` and
`{}` are falsy, everything else is truthy. -/
def Value.truthy : Value → Bool
  | .null => false
  | .bool b => b
  | .int n => n != 0
  | .str s => s != ""
  | .list xs => !xs.isEmpty
  | .dict kvs => !kvs.isEmpty

/-- Dict lookup (`d.get(key)` / `d[key]`); keys of a Python dict are unique,
so first match suffices. -/
def lookupKV : List (String × Value) → String → Option Value
  | [], _ => none
  | (k, v) :: rest, key => if k == key then some v else lookupKV rest key

/-- Python `key in d`. -/
def hasKey (kvs : List (String × Value)) (key : String) : Bool :=
  (lookupKV kvs key).isSome

/-- Python `d[key] = v`: replace the value at `key` preserving insertion
order, or append the pair if the key is absent. -/
def setKV : List (String × Value) → String → Value → List (String × Value)
  | [], key, v => [(key, v)]
  | (k, w) :: rest, key, v =>
      if k == key then (key, v) :: rest else (k, w) :: setKV rest key v

/-- Python `v == s` where `s` is a string literal: true only for an equal
string value. -/
def Value.isStrEq (v : Value) (s : String) : Bool :=
  match v with
  | .str t => t == s
  | _ => false

/-- One item of `graph.astream(...)`: either a tuple or a bare (non-tuple)
value, matching the `isinstance(raw_event, tuple)` branches in
`execute_run_async`. -/
inductive RawEvent where
  | tup : List Value → RawEvent
  | bare : Value → RawEvent

/-- Source `utils.py:329-335`: only a tuple of length ≥ 2 whose first element
is `"values"`, or a bare (non-tuple) event, yields a snapshot payload that
updates `final_output`. -/
def snapPayload : RawEvent → Option Value
  | .tup (m :: p :: _) => if m.isStrEq "values" then some p else none
  | .tup _ => none
  | .bare v => some v

/-- Source `utils.py:319-324`: the `event_data` examined for the interrupt
marker — second tuple component for tuples of length ≥ 2, the event itself
for non-tuples, `None` otherwise. -/
def eventData : RawEvent → Option Value
  | .tup (_ :: d :: _) => some d
  | .tup _ => none
  | .bare v => some v

/-- Source `utils.py:326`: `isinstance(event_data, dict) and "__interrupt__"
in event_data`. -/
def isInterruptEvent (ev : RawEvent) : Bool :=
  match eventData ev with
  | some (.dict kvs) => hasKey kvs "__interrupt__"
  | _ => false

/-- Source `utils.py:304`: `event_id = f"{run_id}_event_{event_counter}"`. -/
def eventIdOf (runId : String) (n : Nat) : String :=
  runId ++ "_event_" ++ toString n

/-- The externally visible effects of the executor and of the HTTP routes,
in program order.  Broker and store internals (`streaming_service`,
`langgraph_service`) live outside `src/`; their invocations are recorded as
opaque actions. -/
inductive Action where
  | updateRunStatus : String → String → Option Value → Option String → Action
  | setThreadStatus : String → String → Action
  | putToBroker : String → String → RawEvent → Action
  | storeEvent : String → String → RawEvent → Action
  | signalRunCancelled : String → Action
  | signalRunError : String → String → Action
  | reraiseCancelled : Action
  | reraiseError : String → Action
  | cleanupRun : String → Action
  | registryPop : String → Action

/-- Mutable state of the `async for` loop of `execute_run_async`
(`event_counter`, `final_output`, `has_interrupt`) together with the actions
emitted so far. -/
structure LoopState where
  counter : Nat
  finalOutput : Option Value
  hasInterrupt : Bool
  trace : List Action

/-- Source `utils.py:296-335`: one iteration of the event loop — bump the
counter, forward the event to broker and store under the derived id, check
the interrupt marker, track the snapshot output. -/
def stepEvent (runId : String) (s : LoopState) (ev : RawEvent) : LoopState :=
  let n := s.counter + 1
  let eid := eventIdOf runId n
  { counter := n
    finalOutput :=
      match snapPayload ev with
      | some p => some p
      | none => s.finalOutput
    hasInterrupt := s.hasInterrupt || isInterruptEvent ev
    trace := s.trace ++ [Action.putToBroker runId eid ev, Action.storeEvent runId eid ev] }

/-- Source `utils.py:278-281`: `event_counter = 0`, `final_output = None`,
`has_interrupt = False`. -/
def loopStart : LoopState := ⟨0, none, false, []⟩

/-- The whole `async for raw_event in graph.astream(...)` loop over the
events the agent produced. -/
def runLoop (runId : String) (events : List RawEvent) : LoopState :=
  events.foldl (stepEvent runId) loopStart

/-- Python `{}`. -/
def emptyDict : Value := .dict []

/-- Source `utils.py:341,355`: `final_output or {}` — Python `or` yields the
right operand whenever the left one is falsy (in particular `None`). -/
def pyOrEmpty : Option Value → Value
  | some v => if v.truthy then v else emptyDict
  | none => emptyDict

/-- How the agent stream ends: normal exhaustion, an
`asyncio.CancelledError`, or some other exception whose `str(e)` is the
carried message.  For the latter two the executor has consumed only the
prefix of events passed to `execute_run_async`. -/
inductive StreamOutcome where
  | exhausted
  | cancelledMid
  | raisesMid : String → StreamOutcome

/-- The terminal branch of `execute_run_async` (src/backend/misc/utils.py:
337-363 for normal exhaustion, 365-375 for `asyncio.CancelledError`,
376-388 for any other exception), given the loop state the stream left
behind. -/
def terminalActions (runId threadId : String) (s : LoopState) :
    StreamOutcome → List Action
  | .exhausted =>
      if s.hasInterrupt then
        [Action.updateRunStatus runId "interrupted" (some (pyOrEmpty s.finalOutput)) none,
         Action.setThreadStatus threadId "interrupted"]
      else
        [Action.updateRunStatus runId "completed" (some (pyOrEmpty s.finalOutput)) none,
         Action.setThreadStatus threadId "idle"]
  | .cancelledMid =>
      [Action.updateRunStatus runId "cancelled" (some emptyDict) none,
       Action.setThreadStatus threadId "idle",
       Action.signalRunCancelled runId,
       Action.reraiseCancelled]
  | .raisesMid msg =>
      [Action.updateRunStatus runId "failed" (some emptyDict) (some msg),
       Action.setThreadStatus threadId "idle",
       Action.signalRunError runId msg,
       Action.reraiseError msg]

/-- Source `utils.py:251-392`: the protected region of `execute_run_async`
— the `try` block and its handlers — as a trace of effects: the initial
`running` update, the event loop, the terminal branch chosen from
`has_interrupt` / cancellation / exception, and the `finally` block
(`cleanup_run` + `active_runs.pop`), which is unconditional once the `try`
has been entered.  The statements before the `try` (session setup, the
awaited `inject_rag_context` call at line 237, stream-mode normalization)
perform none of these effects and are not guarded by the handlers or the
`finally`; the whole coroutine, including the exit path where a task
cancellation is delivered during that pre-`try` phase, is
`execute_run_async_full`. -/
def execute_run_async (runId threadId : String) (events : List RawEvent)
    (outcome : StreamOutcome) : List Action :=
  let s := runLoop runId events
  Action.updateRunStatus runId "running" none none ::
    (s.trace ++ terminalActions runId threadId s outcome ++
      [Action.cleanupRun runId, Action.registryPop runId])

/-- Modelled from the spec: `general_serializer.serialize`
(src/backend/core/general_serializer.py is not among the provided sources).
Spec §6: "given an arbitrary output value, returns a structure safe for
storage as a structured (JSON-like) document, or raises".  `Value` is
already a JSON-like document, so the serializer returns its argument and
never raises. -/
def general_serializer_serialize (v : Value) : Except String Value := .ok v

/-- Python `str(type(v))`, used in the serialization-failure placeholder. -/
def pyTypeName : Value → String
  | .null => "<class 'NoneType'>"
  | .bool _ => "<class 'bool'>"
  | .int _ => "<class 'int'>"
  | .str _ => "<class 'str'>"
  | .list _ => "<class 'list'>"
  | .dict _ => "<class 'dict'>"

/-- Source `utils.py:411-421`: serialize the output for storage; on a
serializer exception store the diagnostic placeholder instead of raising. -/
def serializeOutput (v : Value) : Value :=
  match general_serializer_serialize v with
  | .ok w => w
  | .error _ =>
      .dict [("error", .str "Output serialization failed"),
             ("original_type", .str (pyTypeName v))]

/-- The persisted columns of a `Run` row that `update_run_status` touches. -/
structure RunRecord where
  status : String
  output : Option Value
  errorMessage : Option String

/-- Source `utils.py:395-434` (`update_run_status`) and the surrounding
routes, as a state transformer on the persisted row: a status update always
writes `status`; `output` is written (serialized) only when not `None`;
`error_message` only when an error text is given.  All other actions leave
the row unchanged. -/
def applyAction (r : RunRecord) : Action → RunRecord
  | .updateRunStatus _ st out err =>
      { status := st
        output := match out with
          | none => r.output
          | some v => some (serializeOutput v)
        errorMessage := match err with
          | none => r.errorMessage
          | some m => some m }
  | _ => r

/-- Source `chat_routes.py:476`: `create_run` inserts the row with
`status="pending"`. -/
def create_run_initial_status : String := "pending"

/-- Source `chat_routes.py:596`: `create_and_stream_run` inserts the row
with `status="streaming"`. -/
def create_and_stream_run_initial_status : String := "streaming"

/-- The persisted row after a full executor run, starting from the row the
creation endpoint inserted (only the status differs between the two
endpoints; output and error start as `None`). -/
def finalRunRecord (initialStatus runId threadId : String)
    (events : List RawEvent) (outcome : StreamOutcome) : RunRecord :=
  (execute_run_async runId threadId events outcome).foldl applyAction
    ⟨initialStatus, none, none⟩

/-- How the whole `execute_run_async` coroutine ends: either a task
cancellation is delivered during the pre-`try` phase — in particular during
the awaited `inject_rag_context` call at utils.py:237, whose own
`except Exception` (line 208) does not catch `asyncio.CancelledError`, a
`BaseException` — so the coroutine exits before the `try` at line 251 is
entered; or the `try` is entered, the stream produces `events`, and the run
ends as `outcome`. -/
inductive ExecOutcome where
  | preTryCancelled
  | entered : List RawEvent → StreamOutcome → ExecOutcome

/-- Source `utils.py:214-392` (`execute_run_async`), the whole coroutine:
the code before the `try` (lines 232-249) performs no persisted-status,
broker or registry action, so a cancellation delivered there leaves an
empty trace — neither the cancellation handler (365-375) nor the `finally`
(389-392) ever runs on that exit path; once the `try` is entered the trace
is that of the protected region. -/
def execute_run_async_full (runId threadId : String) : ExecOutcome → List Action
  | .preTryCancelled => []
  | .entered events outcome => execute_run_async runId threadId events outcome

/-- The persisted row after the whole coroutine, starting from the row the
creation endpoint inserted. -/
def finalRunRecordFull (initialStatus runId threadId : String)
    (eo : ExecOutcome) : RunRecord :=
  (execute_run_async_full runId threadId eo).foldl applyAction
    ⟨initialStatus, none, none⟩

/-- Source `chat_routes.py:816-835` (`cancel_run_endpoint`), restricted to
the persisted row of an existing run: the status is overwritten with
`interrupted` or `cancelled` according to `action`, with no check of the
current status. -/
def cancel_run_endpoint (action : String) (r : RunRecord) : RunRecord :=
  if action == "interrupt" then { r with status := "interrupted" }
  else { r with status := "cancelled" }

/-- Source `chat_routes.py:747-773` (`update_run`, PATCH route): requested
status `cancelled` or `interrupted` is written unconditionally; any other
requested status leaves the row untouched. -/
def update_run_patch (requested : String) (r : RunRecord) : RunRecord :=
  if requested == "cancelled" then { r with status := "cancelled" }
  else if requested == "interrupted" then { r with status := "interrupted" }
  else r

/-- The four terminal run statuses of the spec's lifecycle. -/
def isTerminalStatus (s : String) : Bool :=
  s == "completed" || s == "interrupted" || s == "cancelled" || s == "failed"

/-! ## `inject_rag_context` (src/backend/misc/utils.py:129-211)

The two collaborator calls (`rag_service.has_files_in_thread`,
`rag_service.get_context_for_query`) are oracles passed as arguments; each
may raise (`Except.error`), which the function's outer `try`/`except`
swallows by returning the original input.  `copy.deepcopy` on a pure
`Value` tree is the identity on values; every in-place mutation of the
source (`msg["content"] = …`, `first_content["text"] = …`, `content[0] = …`)
targets the deep copy and is embedded as a pure rewrite of that copy, so
the caller's object is returned untouched in `callerInput`. -/

mutual
/-- Python `str(v)` as used by f-string interpolation (rendering of nested
containers is repr-like; no theorem depends on its exact text). -/
def pyStr : Value → String
  | .null => "None"
  | .bool true => "True"
  | .bool false => "False"
  | .int n => toString n
  | .str s => s
  | .list xs => "[" ++ pyStrList xs ++ "]"
  | .dict kvs => "\x7b" ++ pyStrKVs kvs ++ "\x7d"

/-- Comma-separated rendering of list elements. -/
def pyStrList : List Value → String
  | [] => ""
  | [v] => pyStr v
  | v :: rest => pyStr v ++ ", " ++ pyStrList rest

/-- Comma-separated rendering of dict entries. -/
def pyStrKVs : List (String × Value) → String
  | [] => ""
  | [(k, v)] => k ++ ": " ++ pyStr v
  | (k, v) :: rest => k ++ ": " ++ pyStr v ++ ", " ++ pyStrKVs rest
end

/-- Source `utils.py:155-157`: `messages = input_data.get("messages", [])`
followed by `if not messages: return input_data` and iteration.  A non-dict
`input_data` raises (`.get` on a non-dict); a truthy non-list `messages`
value always raises once iterated (`reversed`/`msg.get` on its elements),
while a falsy one takes the early return — the falsy case is reported as
`ok []` and the raising ones as `error`. -/
def getMessages (input : Value) : Except Unit (List Value) :=
  match input with
  | .dict kvs =>
      match lookupKV kvs "messages" with
      | none => .ok []
      | some (.list xs) => .ok xs
      | some v => if v.truthy then .error () else .ok []
  | _ => .error ()

/-- Source `utils.py:162`: `msg.get("type") == "human"` (for a dict
message). -/
def isHumanKVs (kvs : List (String × Value)) : Bool :=
  match lookupKV kvs "type" with
  | some v => v.isStrEq "human"
  | none => false

/-- Source `utils.py:163-172`: the `user_query` extracted from the content
of the last human message — the string content itself, or for a content
array its first element (a dict's `"text"` value with default `""`, or the
element itself when a string); `None` in every other shape. -/
def extractFromContent : Value → Option Value
  | .str s => some (.str s)
  | .list (first :: _) =>
      match first with
      | .dict d => some ((lookupKV d "text").getD (.str ""))
      | .str s => some (.str s)
      | _ => none
  | _ => none

/-- Source `utils.py:160-173`: walk the reversed message list, stop at the
first human message and extract `user_query` from it; a non-dict message
raises (`msg.get` on a non-dict). -/
def extractUserQuery : List Value → Except Unit (Option Value)
  | [] => .ok none
  | m :: rest =>
      match m with
      | .dict kvs =>
          if isHumanKVs kvs then
            .ok (extractFromContent ((lookupKV kvs "content").getD (.str "")))
          else extractUserQuery rest
      | _ => .error ()

/-- Source `utils.py:192-203`: rewrite the content of the found human
message by prepending the retrieved context, mirroring each in-place
assignment of the source as a functional update. -/
def rewriteContent (ctx : String) : Value → Value
  | .str s => .str (ctx ++ "\n\nUser Query: " ++ s)
  | .list (first :: rest) =>
      match first with
      | .dict d =>
          if hasKey d "text" then
            .list (.dict (setKV d "text"
              (.str (ctx ++ "\n\nUser Query: " ++ pyStr ((lookupKV d "text").getD (.str ""))))) :: rest)
          else .list (.dict d :: rest)
      | .str s => .list (.str (ctx ++ "\n\nUser Query: " ++ s) :: rest)
      | other => .list (other :: rest)
  | other => other

/-- One human message after the rewrite: its `"content"` entry is replaced
(or created, matching `msg["content"] = …` when `.get` fell back to `""`). -/
def rewriteMsg (ctx : String) (m : Value) : Value :=
  match m with
  | .dict kvs =>
      .dict (setKV kvs "content" (rewriteContent ctx ((lookupKV kvs "content").getD (.str ""))))
  | other => other

/-- Source `utils.py:190-203`: the rewrite loop over the reversed messages
of the copy — rewrite the first human message and stop; a non-dict message
before it raises. -/
def rewriteReversed (ctx : String) : List Value → Except Unit (List Value)
  | [] => .ok []
  | m :: rest =>
      match m with
      | .dict kvs =>
          if isHumanKVs kvs then .ok (rewriteMsg ctx (.dict kvs) :: rest)
          else (rewriteReversed ctx rest).map (m :: ·)
      | _ => .error ()

/-- The rewrite applied to the whole (copied) input: its `"messages"` list,
traversed in reverse, has its last human message rewritten; a missing
`"messages"` key means the loop body never runs and the copy is returned
as-is. -/
def rewriteInput (ctx : String) : Value → Except Unit Value
  | .dict kvs =>
      match lookupKV kvs "messages" with
      | none => .ok (.dict kvs)
      | some (.list msgs) =>
          (rewriteReversed ctx msgs.reverse).map
            (fun ms => .dict (setKV kvs "messages" (.list ms.reverse)))
      | some v => if v.truthy then .error () else .ok (.dict kvs)
  | _ => .error ()

/-- `copy.deepcopy(input_data)` (src/backend/misc/utils.py:187): produces an
equal value sharing no mutable sub-object with the original; on the pure
`Value` tree this is the identity, and the absence of sharing is captured by
applying every rewrite to this copy while `callerInput` carries the
original. -/
def deepcopy (v : Value) : Value := v

/-- What `inject_rag_context` leaves behind: the value it returns and the
caller's original `input_data` object as it stands after the call. -/
structure InjectResult where
  result : Value
  callerInput : Value

/-- Source `utils.py:129-211` (`inject_rag_context`): best-effort RAG
context injection.  `hasFiles` stands for
`rag_service.has_files_in_thread`, `getContext` for
`rag_service.get_context_for_query` (which returns a string, `""` when
nothing was retrieved); any raising path is caught by the outer
`try`/`except` and yields the original input. -/
def inject_rag_context (hasFiles : Except Unit Bool)
    (getContext : Value → Except Unit String) (inputData : Value) : InjectResult :=
  let unchanged : InjectResult := ⟨inputData, inputData⟩
  match hasFiles with
  | .error _ => unchanged
  | .ok false => unchanged
  | .ok true =>
      match getMessages inputData with
      | .error _ => unchanged
      | .ok msgs =>
          if msgs.isEmpty then unchanged
          else
            match extractUserQuery msgs.reverse with
            | .error _ => unchanged
            | .ok none => unchanged
            | .ok (some q) =>
                if !q.truthy then unchanged
                else
                  match getContext q with
                  | .error _ => unchanged
                  | .ok ctx =>
                      if ctx == "" then unchanged
                      else
                        match rewriteInput ctx (deepcopy inputData) with
                        | .error _ => unchanged
                        | .ok rewritten => ⟨rewritten, inputData⟩

/-! ## Derived notions used by the theorems -/

/-- The snapshot payload of the last snapshot-mode event of a stream — the
value `final_output` holds once the loop has consumed `events`. -/
def lastSnapshot : List RawEvent → Option Value
  | [] => none
  | ev :: rest =>
      match lastSnapshot rest with
      | some p => some p
      | none => snapPayload ev

/-- The broker/store forwarding actions the loop emits for `events` when the
counter starts at `base`. -/
def expectedTrace (runId : String) (base : Nat) : List RawEvent → List Action
  | [] => []
  | ev :: rest =>
      Action.putToBroker runId (eventIdOf runId (base + 1)) ev ::
      Action.storeEvent runId (eventIdOf runId (base + 1)) ev ::
      expectedTrace runId (base + 1) rest

/-- The broker deliveries of a trace, as (event id, event) pairs in order. -/
def brokerForwards (tr : List Action) : List (String × RawEvent) :=
  tr.filterMap fun a =>
    match a with
    | .putToBroker _ eid ev => some (eid, ev)
    | _ => none

/-- The store appends of a trace, as (event id, event) pairs in order. -/
def storeForwards (tr : List Action) : List (String × RawEvent) :=
  tr.filterMap fun a =>
    match a with
    | .storeEvent _ eid ev => some (eid, ev)
    | _ => none

/-- Phrased from the spec's words for claim C2 ("the last snapshot-mode
payload observed before the interrupt marker appeared"): the last snapshot
payload among the events strictly preceding the first event that carries the
interrupt marker.  This is the refinement target C2 is compared against; the
code's behaviour is `lastSnapshot` over the whole stream. -/
def lastSnapshotBeforeInterrupt (events : List RawEvent) : Option Value :=
  lastSnapshot (events.takeWhile fun ev => !isInterruptEvent ev)

/-- An option holding no truthy value — `final_output` is `None` or falsy,
the situation C10 is about. -/
def falsyOpt : Option Value → Bool
  | none => true
  | some v => !v.truthy

/-- Concrete stream refuting C2: an `updates`-mode event carrying the
interrupt marker, followed by a `values`-mode snapshot event. -/
def c2Stream : List RawEvent :=
  [RawEvent.tup [.str "updates", .dict [("__interrupt__", .list [])]],
   RawEvent.tup [.str "values", .dict [("x", .int 1)]]]

/-- A run row already in the terminal status `completed`, used to refute
C4's monotonicity half. -/
def completedRow : RunRecord := ⟨"completed", some emptyDict, none⟩

/-! ## Injectivity of the decimal rendering inside event identifiers -/

/-- Most-significant-first decimal digit characters of `n` — the list that
`Nat.toDigits 10 n` produces, phrased by structural recursion on `n`. -/
def msfDigits (n : Nat) : List Char :=
  if _h : n < 10 then [Nat.digitChar n]
  else msfDigits (n / 10) ++ [Nat.digitChar (n % 10)]
termination_by n
decreasing_by exact Nat.div_lt_self (by omega) (by omega)

theorem msfDigits_lt {n : Nat} (h : n < 10) : msfDigits n = [Nat.digitChar n] := by
  rw [msfDigits, dif_pos h]

theorem msfDigits_ge {n : Nat} (h : ¬ n < 10) :
    msfDigits n = msfDigits (n / 10) ++ [Nat.digitChar (n % 10)] := by
  conv_lhs => rw [msfDigits]
  rw [dif_neg h]

theorem msfDigits_ne_nil (n : Nat) : msfDigits n ≠ [] := by
  by_cases h : n < 10
  · rw [msfDigits_lt h]; simp
  · rw [msfDigits_ge h]; simp

theorem toDigitsCore_eq_msf :
    ∀ fuel n : Nat, n < fuel → ∀ ds : List Char,
      Nat.toDigitsCore 10 fuel n ds = msfDigits n ++ ds := by
  intro fuel
  induction fuel with
  | zero => intro n h; omega
  | succ f ih =>
      intro n h ds
      simp only [Nat.toDigitsCore]
      by_cases h0 : n / 10 = 0
      · have hn : n < 10 := by omega
        rw [if_pos h0, msfDigits_lt hn, Nat.mod_eq_of_lt hn]
        simp
      · have hge : ¬ n < 10 := by omega
        have hlt : n / 10 < f := by omega
        rw [if_neg h0, ih (n / 10) hlt, msfDigits_ge hge]
        simp

theorem digitChar_injOn :
    ∀ a < 10, ∀ b < 10, Nat.digitChar a = Nat.digitChar b → a = b := by decide

theorem msfDigits_inj : ∀ m n : Nat, msfDigits m = msfDigits n → m = n := by
  intro m
  induction m using Nat.strong_induction_on with
  | _ m ih =>
      intro n h
      by_cases hm : m < 10 <;> by_cases hn : n < 10
      · rw [msfDigits_lt hm, msfDigits_lt hn] at h
        simp only [List.cons.injEq, and_true] at h
        exact digitChar_injOn m hm n hn h
      · rw [msfDigits_lt hm, msfDigits_ge hn] at h
        have hl := congrArg List.length h
        simp at hl
        exact absurd hl (msfDigits_ne_nil (n / 10))
      · rw [msfDigits_ge hm, msfDigits_lt hn] at h
        have hl := congrArg List.length h
        simp at hl
        exact absurd hl (msfDigits_ne_nil (m / 10))
      · rw [msfDigits_ge hm, msfDigits_ge hn] at h
        obtain ⟨h1, h2⟩ := List.append_inj' h (by simp)
        have hdiv : m / 10 = n / 10 :=
          ih (m / 10) (Nat.div_lt_self (by omega) (by omega)) (n / 10) h1
        have hmod : m % 10 = n % 10 := by
          have hc : Nat.digitChar (m % 10) = Nat.digitChar (n % 10) := by
            simpa using h2
          exact digitChar_injOn (m % 10) (Nat.mod_lt m (by omega)) (n % 10)
            (Nat.mod_lt n (by omega)) hc
        omega

theorem natRepr_inj {m n : Nat} (h : Nat.repr m = Nat.repr n) : m = n := by
  unfold Nat.repr Nat.toDigits at h
  rw [toDigitsCore_eq_msf (m + 1) m (Nat.lt_succ_self m) [],
      toDigitsCore_eq_msf (n + 1) n (Nat.lt_succ_self n) []] at h
  have h2 : msfDigits m = msfDigits n := by
    simpa using congrArg String.data h
  exact msfDigits_inj m n h2

theorem natToString_inj {m n : Nat} (h : toString m = toString n) : m = n :=
  natRepr_inj h

theorem string_append_left_cancel {a b c : String} (h : a ++ b = a ++ c) :
    b = c := by
  have hd : a.data ++ b.data = a.data ++ c.data := by
    simpa [String.data_append] using congrArg String.data h
  have hbc : b.data = c.data := List.append_cancel_left hd
  cases b; cases c; exact congrArg String.mk hbc

theorem eventIdOf_inj (runId : String) {m n : Nat}
    (h : eventIdOf runId m = eventIdOf runId n) : m = n := by
  unfold eventIdOf at h
  exact natToString_inj (string_append_left_cancel h)

/-! ## Characterization of the executor's event loop -/

theorem foldl_step_counter (runId : String) :
    ∀ (events : List RawEvent) (s : LoopState),
      (events.foldl (stepEvent runId) s).counter = s.counter + events.length := by
  intro events
  induction events with
  | nil => intro s; simp
  | cons ev rest ih =>
      intro s
      simp only [List.foldl_cons, ih, stepEvent, List.length_cons]
      omega

theorem foldl_step_hasInterrupt (runId : String) :
    ∀ (events : List RawEvent) (s : LoopState),
      (events.foldl (stepEvent runId) s).hasInterrupt
        = (s.hasInterrupt || events.any isInterruptEvent) := by
  intro events
  induction events with
  | nil => intro s; simp
  | cons ev rest ih =>
      intro s
      simp only [List.foldl_cons, ih, stepEvent, List.any_cons, Bool.or_assoc]

theorem foldl_step_finalOutput (runId : String) :
    ∀ (events : List RawEvent) (s : LoopState),
      (events.foldl (stepEvent runId) s).finalOutput
        = match lastSnapshot events with
          | some p => some p
          | none => s.finalOutput := by
  intro events
  induction events with
  | nil => intro s; simp [lastSnapshot]
  | cons ev rest ih =>
      intro s
      cases hrest : lastSnapshot rest <;> cases hev : snapPayload ev <;>
        simp [List.foldl_cons, ih, stepEvent, lastSnapshot, hrest, hev]

theorem foldl_step_trace (runId : String) :
    ∀ (events : List RawEvent) (s : LoopState),
      (events.foldl (stepEvent runId) s).trace
        = s.trace ++ expectedTrace runId s.counter events := by
  intro events
  induction events with
  | nil => intro s; simp [expectedTrace]
  | cons ev rest ih =>
      intro s
      simp [List.foldl_cons, ih, stepEvent, expectedTrace, List.append_assoc]

theorem runLoop_counter (runId : String) (events : List RawEvent) :
    (runLoop runId events).counter = events.length := by
  simp [runLoop, foldl_step_counter, loopStart]

theorem runLoop_hasInterrupt (runId : String) (events : List RawEvent) :
    (runLoop runId events).hasInterrupt = events.any isInterruptEvent := by
  simp [runLoop, foldl_step_hasInterrupt, loopStart]

theorem runLoop_finalOutput (runId : String) (events : List RawEvent) :
    (runLoop runId events).finalOutput = lastSnapshot events := by
  rw [runLoop, foldl_step_finalOutput]
  cases h : lastSnapshot events <;> simp [loopStart]

theorem runLoop_trace (runId : String) (events : List RawEvent) :
    (runLoop runId events).trace = expectedTrace runId 0 events := by
  rw [runLoop, foldl_step_trace]
  simp [loopStart]

theorem brokerForwards_expectedTrace (runId : String) :
    ∀ (events : List RawEvent) (base : Nat),
      brokerForwards (expectedTrace runId base events)
        = (events.enumFrom base).map fun p => (eventIdOf runId (p.1 + 1), p.2) := by
  intro events
  induction events with
  | nil => intro base; simp [expectedTrace, brokerForwards]
  | cons ev rest ih =>
      intro base
      simp [expectedTrace, brokerForwards, List.filterMap_cons, List.enumFrom]
      exact ih (base + 1)

theorem storeForwards_expectedTrace (runId : String) :
    ∀ (events : List RawEvent) (base : Nat),
      storeForwards (expectedTrace runId base events)
        = (events.enumFrom base).map fun p => (eventIdOf runId (p.1 + 1), p.2) := by
  intro events
  induction events with
  | nil => intro base; simp [expectedTrace, storeForwards]
  | cons ev rest ih =>
      intro base
      simp [expectedTrace, storeForwards, List.filterMap_cons, List.enumFrom]
      exact ih (base + 1)

theorem foldl_applyAction_expectedTrace (runId : String) :
    ∀ (events : List RawEvent) (base : Nat) (r : RunRecord),
      (expectedTrace runId base events).foldl applyAction r = r := by
  intro events
  induction events with
  | nil => intro base r; simp [expectedTrace]
  | cons ev rest ih =>
      intro base r
      simp [expectedTrace, List.foldl_cons, applyAction, ih]

/-! ## The persisted row on each exit path -/

theorem finalRunRecord_exhausted (initialStatus runId threadId : String)
    (events : List RawEvent) :
    finalRunRecord initialStatus runId threadId events .exhausted
      = ⟨if events.any isInterruptEvent then "interrupted" else "completed",
         some (serializeOutput (pyOrEmpty (lastSnapshot events))), none⟩ := by
  simp only [finalRunRecord, execute_run_async, terminalActions]
  rw [runLoop_trace, runLoop_hasInterrupt, runLoop_finalOutput]
  cases h : events.any isInterruptEvent <;>
    simp [h, List.foldl_cons, List.foldl_append, foldl_applyAction_expectedTrace,
      applyAction]

theorem finalRunRecord_cancelledMid (initialStatus runId threadId : String)
    (events : List RawEvent) :
    finalRunRecord initialStatus runId threadId events .cancelledMid
      = ⟨"cancelled", some emptyDict, none⟩ := by
  simp only [finalRunRecord, execute_run_async, terminalActions]
  rw [runLoop_trace]
  simp [List.foldl_cons, List.foldl_append, foldl_applyAction_expectedTrace,
    applyAction, serializeOutput, general_serializer_serialize]

theorem finalRunRecord_raisesMid (initialStatus runId threadId msg : String)
    (events : List RawEvent) :
    finalRunRecord initialStatus runId threadId events (.raisesMid msg)
      = ⟨"failed", some emptyDict, some msg⟩ := by
  simp only [finalRunRecord, execute_run_async, terminalActions]
  rw [runLoop_trace]
  simp [List.foldl_cons, List.foldl_append, foldl_applyAction_expectedTrace,
    applyAction, serializeOutput, general_serializer_serialize]

theorem finalRunRecordFull_entered (initialStatus runId threadId : String)
    (events : List RawEvent) (outcome : StreamOutcome) :
    finalRunRecordFull initialStatus runId threadId (.entered events outcome)
      = finalRunRecord initialStatus runId threadId events outcome := rfl

theorem lastSnapshot_append_single (events : List RawEvent) (ev : RawEvent) :
    lastSnapshot (events ++ [ev])
      = match snapPayload ev with
        | some p => some p
        | none => lastSnapshot events := by
  induction events with
  | nil => cases h : snapPayload ev <;> simp [lastSnapshot, h]
  | cons e rest ih =>
      cases h : snapPayload ev <;>
        cases hrest : lastSnapshot rest <;>
          simp_all [lastSnapshot, List.cons_append]

/-! ## Claims -/

/-- C1: For every run, the event identifiers the executor generates while
consuming the agent stream are exactly `{run_id}_event_1 … {run_id}_event_n`
in production order — a 1-based counter bumped by exactly 1 per produced
event, with no gaps and no repeats, regardless of which stream modes the
events belong to and of how the run ends — and each produced event is
forwarded exactly once to the broker and once to the store under that
identifier. -/
theorem C1_event_identifier_sequence (runId threadId : String)
    (events : List RawEvent) (outcome : StreamOutcome) :
    brokerForwards (execute_run_async runId threadId events outcome)
        = events.enum.map (fun p => (eventIdOf runId (p.1 + 1), p.2))
    ∧ storeForwards (execute_run_async runId threadId events outcome)
        = events.enum.map (fun p => (eventIdOf runId (p.1 + 1), p.2))
    ∧ (events.enum.map (fun p => (eventIdOf runId (p.1 + 1), p.2))).map Prod.fst
        = (List.range events.length).map (fun i => eventIdOf runId (i + 1))
    ∧ ((List.range events.length).map (fun i => eventIdOf runId (i + 1))).Nodup := by
  have hinj : Function.Injective (fun i => eventIdOf runId (i + 1)) := by
    intro a b hab
    have := eventIdOf_inj runId hab
    omega
  refine ⟨?_, ?_, ?_, ?_⟩
  · have hb : brokerForwards (execute_run_async runId threadId events outcome)
        = brokerForwards (expectedTrace runId 0 events) := by
      simp only [execute_run_async]
      rw [runLoop_trace]
      unfold brokerForwards
      rw [List.filterMap_cons, List.filterMap_append, List.filterMap_append]
      cases outcome with
      | exhausted => simp only [terminalActions]; split <;> simp
      | cancelledMid => simp [terminalActions]
      | raisesMid msg => simp [terminalActions]
    rw [hb, brokerForwards_expectedTrace]
    rfl
  · have hs : storeForwards (execute_run_async runId threadId events outcome)
        = storeForwards (expectedTrace runId 0 events) := by
      simp only [execute_run_async]
      rw [runLoop_trace]
      unfold storeForwards
      rw [List.filterMap_cons, List.filterMap_append, List.filterMap_append]
      cases outcome with
      | exhausted => simp only [terminalActions]; split <;> simp
      | cancelledMid => simp [terminalActions]
      | raisesMid msg => simp [terminalActions]
    rw [hs, storeForwards_expectedTrace]
    rfl
  · conv_rhs => rw [← List.enum_map_fst events]
    rw [List.map_map, List.map_map]
    rfl
  · exact List.Nodup.map hinj (List.nodup_range _)

/-- C2 counterexample: a stream whose interrupt marker (in an
`updates`-mode event) precedes a `values`-mode snapshot event terminates as
`interrupted` with the stored output equal to that later snapshot payload —
while no snapshot-mode payload at all was observed before the marker
appeared, so the stored output is not "the last snapshot-mode payload
observed before the interrupt marker appeared". -/
theorem C2_counterexample :
    (finalRunRecord "pending" "r" "t" c2Stream .exhausted).status = "interrupted"
    ∧ (finalRunRecord "pending" "r" "t" c2Stream .exhausted).output
        = some (.dict [("x", .int 1)])
    ∧ lastSnapshotBeforeInterrupt c2Stream = none
    ∧ (finalRunRecord "pending" "r" "t" c2Stream .exhausted).output
        ≠ some (serializeOutput (pyOrEmpty (lastSnapshotBeforeInterrupt c2Stream))) := by
  refine ⟨rfl, rfl, rfl, ?_⟩
  intro h
  have h2 : some (Value.dict [("x", Value.int 1)]) = (some (Value.dict []) : Option Value) := h
  simp at h2

/-- C2 (amended): for every run that exhausts its stream normally — whether
it terminates `completed` or `interrupted` — the stored output is the last
snapshot-mode payload of the whole stream (including snapshot events
produced after the interrupt marker), passed through the serializer, with
`{}` substituted when that payload is absent or falsy; appending a
non-snapshot event never changes the tracked output while appending a
snapshot event sets it to that event's payload. -/
theorem C2_final_output_amended (initialStatus runId threadId : String)
    (events : List RawEvent) :
    (finalRunRecord initialStatus runId threadId events .exhausted).output
        = some (serializeOutput (pyOrEmpty (lastSnapshot events)))
    ∧ (finalRunRecord initialStatus runId threadId events .exhausted).status
        = (if events.any isInterruptEvent then "interrupted" else "completed")
    ∧ (∀ ev : RawEvent, lastSnapshot (events ++ [ev])
        = match snapPayload ev with
          | some p => some p
          | none => lastSnapshot events) := by
  rw [finalRunRecord_exhausted]
  exact ⟨rfl, rfl, fun ev => lastSnapshot_append_single events ev⟩

/-- C3: when the stream exhausts normally, the run terminates `interrupted`
exactly when some event's data payload is a mapping containing the reserved
`__interrupt__` key, and `completed` otherwise; the interrupt flag, once
set by a prefix of the stream, stays set for the remainder of the run. -/
theorem C3_interrupt_priority (initialStatus runId threadId : String)
    (events : List RawEvent) :
    (finalRunRecord initialStatus runId threadId events .exhausted).status
        = (if events.any isInterruptEvent then "interrupted" else "completed")
    ∧ (∀ pre post : List RawEvent,
        (runLoop runId (pre ++ post)).hasInterrupt
          = ((runLoop runId pre).hasInterrupt || post.any isInterruptEvent)) := by
  constructor
  · rw [finalRunRecord_exhausted]
  · intro pre post
    simp [runLoop_hasInterrupt, List.any_append]

/-- C4 counterexample: a run whose persisted status is the terminal value
`completed` has its status overwritten to `cancelled` by a later
`cancel_run` request — the cancel/interrupt route writes its status
unconditionally, so terminal statuses are not monotonic. -/
theorem C4_counterexample :
    isTerminalStatus completedRow.status = true
    ∧ (cancel_run_endpoint "cancel" completedRow).status = "cancelled"
    ∧ (cancel_run_endpoint "cancel" completedRow).status ≠ completedRow.status := by
  refine ⟨rfl, rfl, ?_⟩
  decide

/-- C4 (amended): `cancel_run` and `interrupt_run` write their terminal
status unconditionally on any existing run (the persisted status after the
call depends only on the requested action, never on the previous status, so
a call arriving after a different terminal status does change it); calling
the same operation twice produces the same persisted row as calling it
once, the second call being a no-op that completes without error, and
neither route touches the stored output or error message. -/
theorem C4_idempotent_overwrite (action reqStatus : String) (r : RunRecord) :
    cancel_run_endpoint action (cancel_run_endpoint action r)
        = cancel_run_endpoint action r
    ∧ update_run_patch reqStatus (update_run_patch reqStatus r)
        = update_run_patch reqStatus r
    ∧ (cancel_run_endpoint action r).status
        = (if action == "interrupt" then "interrupted" else "cancelled")
    ∧ (cancel_run_endpoint action r).output = r.output
    ∧ (cancel_run_endpoint action r).errorMessage = r.errorMessage := by
  refine ⟨?_, ?_, ?_, ?_, ?_⟩
  · by_cases h : action == "interrupt" <;> simp [cancel_run_endpoint, h]
  · by_cases h1 : reqStatus == "cancelled" <;> by_cases h2 : reqStatus == "interrupted" <;>
      simp [update_run_patch, h1, h2]
  · by_cases h : action == "interrupt" <;> simp [cancel_run_endpoint, h]
  · by_cases h : action == "interrupt" <;> simp [cancel_run_endpoint, h]
  · by_cases h : action == "interrupt" <;> simp [cancel_run_endpoint, h]

/-- C5 counterexample: the streaming creation endpoint does not create the
run in `pending` status — it inserts the row with status `streaming`. -/
theorem C5_counterexample :
    create_and_stream_run_initial_status ≠ create_run_initial_status
    ∧ create_and_stream_run_initial_status = "streaming" := by
  constructor
  · decide
  · rfl

/-- C5 (amended): the non-streaming creation endpoint creates the run with
status `pending` while the streaming endpoint creates it with status
`streaming`; in both cases the executor's first persisted transition is to
`running`, and every run the executor drives ends in exactly one of the four
terminal statuses `completed`, `interrupted`, `cancelled`, `failed`. -/
theorem C5_lifecycle_amended (initialStatus runId threadId : String)
    (events : List RawEvent) (outcome : StreamOutcome) :
    create_run_initial_status = "pending"
    ∧ create_and_stream_run_initial_status = "streaming"
    ∧ (execute_run_async runId threadId events outcome).head?
        = some (Action.updateRunStatus runId "running" none none)
    ∧ isTerminalStatus
        (finalRunRecord initialStatus runId threadId events outcome).status = true := by
  refine ⟨rfl, rfl, ?_, ?_⟩
  · simp [execute_run_async]
  · cases outcome with
    | exhausted =>
        rw [finalRunRecord_exhausted]
        by_cases h : events.any isInterruptEvent <;> simp [isTerminalStatus, h]
    | cancelledMid => rw [finalRunRecord_cancelledMid]; rfl
    | raisesMid msg => rw [finalRunRecord_raisesMid]; rfl

/-- C6 counterexample: a task cancellation delivered during the awaited
`inject_rag_context` call (utils.py:237, before the `try` at line 251)
escapes both `inject_rag_context`'s own `except Exception` and the
executor's cancellation handler: the executing task is cancelled, yet the
trace is empty, the persisted status remains `pending`, no `cancelled`
status is ever written, and no cancellation sentinel reaches the broker. -/
theorem C6_counterexample :
    execute_run_async_full "r" "t" .preTryCancelled = []
    ∧ (finalRunRecordFull "pending" "r" "t" .preTryCancelled).status = "pending"
    ∧ Action.updateRunStatus "r" "cancelled" (some emptyDict) none
        ∉ execute_run_async_full "r" "t" .preTryCancelled
    ∧ Action.signalRunCancelled "r" ∉ execute_run_async_full "r" "t" .preTryCancelled := by
  refine ⟨rfl, rfl, ?_, ?_⟩ <;> simp [execute_run_async_full]

/-- C6 (amended): when the executing task is cancelled while the executor
is inside its protected region (any time from the `running` update through
stream consumption), the cancellation handler persists status `cancelled`
with the output cleared to `{}` and no error message recorded, sets the
owning thread's status to `idle`, signals the cancellation sentinel to the
broker before re-raising, re-raises the cancellation, and broker teardown
and registry removal still run; a cancellation delivered during the
pre-`try` RAG-injection phase, however, exits the executor with no
persisted change, no signal and no cleanup. -/
theorem C6_cancellation_amended (initialStatus runId threadId : String)
    (events : List RawEvent) :
    execute_run_async_full runId threadId (.entered events .cancelledMid)
        = Action.updateRunStatus runId "running" none none ::
            (expectedTrace runId 0 events ++
              [Action.updateRunStatus runId "cancelled" (some emptyDict) none,
               Action.setThreadStatus threadId "idle",
               Action.signalRunCancelled runId,
               Action.reraiseCancelled,
               Action.cleanupRun runId,
               Action.registryPop runId])
    ∧ finalRunRecordFull initialStatus runId threadId (.entered events .cancelledMid)
        = ⟨"cancelled", some emptyDict, none⟩
    ∧ execute_run_async_full runId threadId .preTryCancelled = []
    ∧ finalRunRecordFull initialStatus runId threadId .preTryCancelled
        = ⟨initialStatus, none, none⟩ := by
  refine ⟨?_, ?_, rfl, rfl⟩
  · simp [execute_run_async_full, execute_run_async, runLoop_trace, terminalActions,
      List.append_assoc]
  · rw [finalRunRecordFull_entered]
    exact finalRunRecord_cancelledMid initialStatus runId threadId events

/-- C7: when the agent stream (or run setup after the `running` update)
raises an unhandled non-cancellation exception with text `msg`, the
executor persists status `failed` with error message `msg` and the output
cleared to `{}`, sets the owning thread's status to `idle`, signals an
error sentinel carrying `msg` to the broker, and re-raises the exception
out of the background task. -/
theorem C7_failure_handler (initialStatus runId threadId msg : String)
    (events : List RawEvent) :
    execute_run_async runId threadId events (.raisesMid msg)
        = Action.updateRunStatus runId "running" none none ::
            (expectedTrace runId 0 events ++
              [Action.updateRunStatus runId "failed" (some emptyDict) (some msg),
               Action.setThreadStatus threadId "idle",
               Action.signalRunError runId msg,
               Action.reraiseError msg,
               Action.cleanupRun runId,
               Action.registryPop runId])
    ∧ finalRunRecord initialStatus runId threadId events (.raisesMid msg)
        = ⟨"failed", some emptyDict, some msg⟩ := by
  constructor
  · simp [execute_run_async, runLoop_trace, terminalActions, List.append_assoc]
  · exact finalRunRecord_raisesMid initialStatus runId threadId msg events

/-- C8 counterexample: the `finally` at utils.py:389-392 guards only the
`try` entered at line 251 — a task cancellation delivered during the
pre-`try` `inject_rag_context` await (line 237) exits `execute_run_async`
with an empty trace, so neither `cleanup_run` nor the registry removal is
ever invoked on that exit path. -/
theorem C8_counterexample :
    execute_run_async_full "r" "t" .preTryCancelled = []
    ∧ Action.cleanupRun "r" ∉ execute_run_async_full "r" "t" .preTryCancelled
    ∧ Action.registryPop "r" ∉ execute_run_async_full "r" "t" .preTryCancelled := by
  refine ⟨rfl, ?_, ?_⟩ <;> simp [execute_run_async_full]

/-- C8 (amended): on every exit path of the executor's protected region —
normal completion, interruption, cancellation and failure — the trace ends
with broker teardown (`cleanup_run`) followed by removal of the run from
the in-memory registry (`active_runs.pop`); but a cancellation delivered
during the pre-`try` RAG-injection phase exits the executor before the
`try` block is entered and skips both steps. -/
theorem C8_cleanup_amended (runId threadId : String) :
    (∀ (events : List RawEvent) (outcome : StreamOutcome),
      ∃ pre : List Action,
        execute_run_async_full runId threadId (.entered events outcome)
          = pre ++ [Action.cleanupRun runId, Action.registryPop runId])
    ∧ execute_run_async_full runId threadId .preTryCancelled = [] := by
  refine ⟨?_, rfl⟩
  intro events outcome
  refine ⟨Action.updateRunStatus runId "running" none none ::
      ((runLoop runId events).trace
        ++ terminalActions runId threadId (runLoop runId events) outcome), ?_⟩
  simp [execute_run_async_full, execute_run_async, List.append_assoc]

/-- C9: the RAG context-injection step never mutates the caller's original
input object (every rewrite is applied to the deep copy, and the caller's
object is returned untouched), and whenever the file check fails or reports
no files, the messages are absent or malformed, no user query is
extractable, the query is falsy, or the context retrieval fails or returns
nothing, it returns the input unmodified rather than raising. -/
theorem C9_rag_no_mutation_best_effort (hf : Except Unit Bool)
    (gc : Value → Except Unit String) (input : Value) :
    (inject_rag_context hf gc input).callerInput = input
    ∧ (hf = .error () → (inject_rag_context hf gc input).result = input)
    ∧ (hf = .ok false → (inject_rag_context hf gc input).result = input)
    ∧ (getMessages input = .error () → (inject_rag_context hf gc input).result = input)
    ∧ (getMessages input = .ok [] → (inject_rag_context hf gc input).result = input)
    ∧ (∀ msgs, getMessages input = .ok msgs →
        extractUserQuery msgs.reverse = .error () →
        (inject_rag_context hf gc input).result = input)
    ∧ (∀ msgs, getMessages input = .ok msgs →
        extractUserQuery msgs.reverse = .ok none →
        (inject_rag_context hf gc input).result = input)
    ∧ (∀ msgs q, getMessages input = .ok msgs →
        extractUserQuery msgs.reverse = .ok (some q) → q.truthy = false →
        (inject_rag_context hf gc input).result = input)
    ∧ (∀ msgs q, getMessages input = .ok msgs →
        extractUserQuery msgs.reverse = .ok (some q) → gc q = .error () →
        (inject_rag_context hf gc input).result = input)
    ∧ (∀ msgs q, getMessages input = .ok msgs →
        extractUserQuery msgs.reverse = .ok (some q) → gc q = .ok "" →
        (inject_rag_context hf gc input).result = input) := by
  refine ⟨?_, ?_, ?_, ?_, ?_, ?_, ?_, ?_, ?_, ?_⟩
  · unfold inject_rag_context
    repeat' split
    all_goals rfl
  · intro h; subst h; rfl
  · intro h; subst h; rfl
  · intro h
    rcases hf with e | b
    · rfl
    · cases b
      · rfl
      · simp only [inject_rag_context, h]
  · intro h
    rcases hf with e | b
    · rfl
    · cases b
      · rfl
      · simp only [inject_rag_context, h, List.isEmpty_nil, if_true]
  · intro msgs h1 h2
    rcases hf with e | b
    · rfl
    · cases b
      · rfl
      · simp only [inject_rag_context, h1]
        split
        · rfl
        · simp only [h2]
  · intro msgs h1 h2
    rcases hf with e | b
    · rfl
    · cases b
      · rfl
      · simp only [inject_rag_context, h1]
        split
        · rfl
        · simp only [h2]
  · intro msgs q h1 h2 h3
    rcases hf with e | b
    · rfl
    · cases b
      · rfl
      · simp only [inject_rag_context, h1]
        split
        · rfl
        · simp only [h2, h3, Bool.not_false, if_true]
  · intro msgs q h1 h2 h3
    rcases hf with e | b
    · rfl
    · cases b
      · rfl
      · simp only [inject_rag_context, h1]
        split
        · rfl
        · simp only [h2]
          split
          · rfl
          · simp only [h3]
  · intro msgs q h1 h2 h3
    rcases hf with e | b
    · rfl
    · cases b
      · rfl
      · simp only [inject_rag_context, h1]
        split
        · rfl
        · simp only [h2]
          split
          · rfl
          · simp [h3]

/-- C9 witness: at the concrete input where the file check raises, the
result and the caller's object both equal the original input. -/
theorem C9_witness :
    (inject_rag_context (.error ()) (fun _ => .ok "") (.dict [])).result = .dict []
    ∧ (inject_rag_context (.error ()) (fun _ => .ok "") (.dict [])).callerInput
        = .dict [] :=
  ⟨(C9_rag_no_mutation_best_effort (.error ()) (fun _ => .ok "") (.dict [])).2.1 rfl,
   (C9_rag_no_mutation_best_effort (.error ()) (fun _ => .ok "") (.dict [])).1⟩

/-- C10: at the terminal states reached by normal stream exhaustion (both
`completed` and `interrupted`), the persisted output is never null, and
when the tracked final output is absent or falsy it is exactly the empty
object `{}`. -/
theorem C10_output_nonnull (initialStatus runId threadId : String)
    (events : List RawEvent) :
    (finalRunRecord initialStatus runId threadId events .exhausted).output ≠ none
    ∧ (falsyOpt (lastSnapshot events) = true →
        (finalRunRecord initialStatus runId threadId events .exhausted).output
          = some emptyDict) := by
  rw [finalRunRecord_exhausted]
  constructor
  · simp
  · intro h
    cases hls : lastSnapshot events with
    | none => simp [pyOrEmpty, serializeOutput, general_serializer_serialize]
    | some v =>
        rw [hls] at h
        simp only [falsyOpt, Bool.not_eq_true'] at h
        simp [pyOrEmpty, h, serializeOutput, general_serializer_serialize]

/-- C10 witness: a run with no events has falsy tracked output and persists
exactly `{}`. -/
theorem C10_witness :
    falsyOpt (lastSnapshot ([] : List RawEvent)) = true
    ∧ (finalRunRecord "pending" "r" "t" [] .exhausted).output = some emptyDict :=
  ⟨rfl, (C10_output_nonnull "pending" "r" "t" []).2 rfl⟩

end ThoughtTree
